import Mathlib

/-!
Verification of the frame detection pipeline of apps/inference/main.py.

The numeric computations of the source (Python floats / numpy arrays) are
embedded over the rationals: every arithmetic operation of the source is
translated literally, with machine floating point idealized as exact
rational arithmetic.  External collaborators (the image codec, the ONNX
inference engine, numpy's exponential) are passed in as explicit
parameters, exactly at the interface the source uses them.
-/

/-- Python's builtin round (round half to even), as used by
int(round(...)) in preprocess_letterbox (main.py lines 70-71). -/
def pyRound (q : ℚ) : ℤ :=
  let f := ⌊q⌋
  let r := q - f
  if r < 1/2 then f
  else if 1/2 < r then f + 1
  else if f % 2 = 0 then f else f + 1

/-- The geometry dictionary returned by preprocess_letterbox
(main.py line 82): dx, dy, draw_w, draw_h, model, src_w, src_h. -/
structure Letterbox where
  dx : ℤ
  dy : ℤ
  draw_w : ℤ
  draw_h : ℤ
  model : ℤ
  src_w : ℤ
  src_h : ℤ
deriving DecidableEq

/-- MODEL_INPUT_SIZE constant (main.py line 30). -/
def MODEL_INPUT_SIZE : ℤ := 320

/-- The geometry computed by preprocess_letterbox (main.py lines
69-73 and the dict of line 82): scale, rounded draw sizes and the
centered floor-division offsets. -/
def letterboxGeometry (src_w src_h model_size : ℤ) : Letterbox :=
  let scale : ℚ := min ((model_size : ℚ) / (src_w : ℚ)) ((model_size : ℚ) / (src_h : ℚ))
  let draw_w : ℤ := pyRound ((src_w : ℚ) * scale)
  let draw_h : ℤ := pyRound ((src_h : ℚ) * scale)
  ⟨Int.fdiv (model_size - draw_w) 2, Int.fdiv (model_size - draw_h) 2,
   draw_w, draw_h, model_size, src_w, src_h⟩

/-- preprocess_letterbox (main.py lines 66-82).  Python raises
ZeroDivisionError in model_size / src_w when a source dimension is 0
(line 69); otherwise it computes the geometry, and the
img.resize((draw_w, draw_h)) call of line 76 raises Pillow's
ValueError "height and width must be > 0" when a draw dimension
rounds below 1 (extreme aspect ratios).  The remaining pixel
operations (new, paste, normalization to a tensor) are external
image-library calls with no further error condition and no effect on
the geometry. -/
def preprocess_letterbox (src_w src_h model_size : ℤ) : Except String Letterbox :=
  if src_w = 0 ∨ src_h = 0 then .error "division by zero"
  else
    let g := letterboxGeometry src_w src_h model_size
    if g.draw_w < 1 ∨ g.draw_h < 1 then .error "height and width must be > 0"
    else .ok g

/-- One detection dict as appended by decode_yolov8 (main.py lines 144-151). -/
structure Det where
  label : ℕ
  score : ℚ
  xmin : ℚ
  ymin : ℚ
  xmax : ℚ
  ymax : ℚ
deriving DecidableEq

/-- The invariant claimed for decoded boxes. -/
def detBounds (d : Det) : Prop :=
  0 ≤ d.xmin ∧ d.xmin < d.xmax ∧ d.xmax ≤ 1 ∧
  0 ≤ d.ymin ∧ d.ymin < d.ymax ∧ d.ymax ≤ 1

/-- max(0.0, min(1.0, v)) as in main.py lines 138-141. -/
def clamp01 (q : ℚ) : ℚ := max 0 (min 1 q)

/-- sigmoid (main.py lines 85-86), parameterized by the external
numpy exponential npExp. -/
def sigmoid (npExp : ℚ → ℚ) (x : ℚ) : ℚ := 1 / (1 + npExp (-x))

/-- np.argmax over axis 0 (main.py line 118): first index of the maximum
of f over 0..n-1. -/
def argmaxCol (f : ℕ → ℚ) (n : ℕ) : ℕ :=
  (List.range n).foldl (fun best i => if f best < f i then i else best) 0

/-- All entries of the class-score block, row-major (used to embed
scores.max() and scores.min() of main.py line 116). -/
def scoreEntries (s : ℕ → ℕ → ℚ) (numClasses numProps : ℕ) : List ℚ :=
  ((List.range numClasses).map (fun i => (List.range numProps).map (fun j => s i j))).flatten

/-- Maximum of a list of rationals (np.max; 0 only on the empty list,
which the caller rules out as numpy raises there). -/
def listMax : List ℚ → ℚ
  | [] => 0
  | x :: xs => xs.foldl max x

/-- Minimum of a list of rationals (np.min). -/
def listMin : List ℚ → ℚ
  | [] => 0
  | x :: xs => xs.foldl min x

/-- The raw output tensor selected from the inference outputs
(main.py lines 91-97): its shape list, and the batch-0 slice as a
matrix indexed (dim1 index, dim2 index). -/
structure RawOutput where
  dims : List ℕ
  mat : ℕ → ℕ → ℚ

/-- The body of decode_yolov8 after the layout has been fixed
(main.py lines 112-151): x is the channel-first matrix of shape
(4 + numClasses, numProps).  numpy raises on scores.max() when the
score block is empty (zero classes or zero candidates); otherwise the
computation is total. -/
def decodeMatrix (npExp : ℚ → ℚ) (numClasses numProps : ℕ) (x : ℕ → ℕ → ℚ)
    (lb : Letterbox) (score_thresh : ℚ) : Except String (List Det) :=
  if numClasses = 0 ∨ numProps = 0 then
    .error "zero-size array to reduction operation maximum which has no identity"
  else
    let rawScores : ℕ → ℕ → ℚ := fun i j => x (4 + i) j
    let entries := scoreEntries rawScores numClasses numProps
    let scores : ℕ → ℕ → ℚ :=
      if 1 < listMax entries ∨ listMin entries < 0 then
        fun i j => sigmoid npExp (rawScores i j)
      else rawScores
    .ok ((List.range numProps).filterMap (fun j =>
      let best_cls := argmaxCol (fun i => scores i j) numClasses
      let s := scores best_cls j
      if s < score_thresh then none
      else
        let cx := x 0 j
        let cy := x 1 j
        let w := x 2 j
        let h := x 3 j
        let x1 := (cx - w / 2 - (lb.dx : ℚ)) / (lb.draw_w : ℚ) * (lb.src_w : ℚ)
        let y1 := (cy - h / 2 - (lb.dy : ℚ)) / (lb.draw_h : ℚ) * (lb.src_h : ℚ)
        let x2 := (cx + w / 2 - (lb.dx : ℚ)) / (lb.draw_w : ℚ) * (lb.src_w : ℚ)
        let y2 := (cy + h / 2 - (lb.dy : ℚ)) / (lb.draw_h : ℚ) * (lb.src_h : ℚ)
        let nx1 := clamp01 (x1 / (lb.src_w : ℚ))
        let ny1 := clamp01 (y1 / (lb.src_h : ℚ))
        let nx2 := clamp01 (x2 / (lb.src_w : ℚ))
        let ny2 := clamp01 (y2 / (lb.src_h : ℚ))
        if nx2 ≤ nx1 ∨ ny2 ≤ ny1 then none
        else some ⟨best_cls, s, nx1, ny1, nx2, ny2⟩))

/-- decode_yolov8 (main.py lines 89-152).  The rank/shape guard of line
100 returns the empty detection list when it fails; indexing the batch
slice raises when the batch dimension is 0; layout selection is the
branch of line 101: channel-first when dims1 >= 6 and dims2 > dims1,
otherwise the matrix is transposed. -/
def decode_yolov8 (npExp : ℚ → ℚ) (out : RawOutput) (lb : Letterbox)
    (score_thresh : ℚ := 20/100) : Except String (List Det) :=
  match out.dims with
  | [d0, d1, d2] =>
    if 6 ≤ d1 ∨ 6 ≤ d2 then
      if d0 = 0 then .error "index 0 is out of bounds for axis 0 with size 0"
      else if 6 ≤ d1 ∧ d1 < d2 then
        decodeMatrix npExp (d1 - 4) d2 out.mat lb score_thresh
      else
        decodeMatrix npExp (d2 - 4) d1 (fun i j => out.mat j i) lb score_thresh
    else .ok []
  | _ => .ok []

/-- Layout determination as the specification words it (spec section 4.2
step 1): treat the tensor as channel-first whenever the first non-batch
dimension is at most the second; written only to compare with
decode_yolov8, which requires the strict inequality. -/
def decode_yolov8_spec (npExp : ℚ → ℚ) (out : RawOutput) (lb : Letterbox)
    (score_thresh : ℚ := 20/100) : Except String (List Det) :=
  match out.dims with
  | [d0, d1, d2] =>
    if 6 ≤ d1 ∨ 6 ≤ d2 then
      if d0 = 0 then .error "index 0 is out of bounds for axis 0 with size 0"
      else if 6 ≤ d1 ∧ d1 ≤ d2 then
        decodeMatrix npExp (d1 - 4) d2 out.mat lb score_thresh
      else
        decodeMatrix npExp (d2 - 4) d1 (fun i j => out.mat j i) lb score_thresh
    else .ok []
  | _ => .ok []

/-- max(0, xmax - xmin) * max(0, ymax - ymin) (main.py line 164). -/
def detArea (d : Det) : ℚ :=
  max 0 (d.xmax - d.xmin) * max 0 (d.ymax - d.ymin)

/-- Intersection area of the iou helper (main.py lines 162-163). -/
def interArea (a b : Det) : ℚ :=
  max 0 (min a.xmax b.xmax - max a.xmin b.xmin) *
  max 0 (min a.ymax b.ymax - max a.ymin b.ymin)

/-- union = area_a + area_b - inter (main.py line 165). -/
def unionArea (a b : Det) : ℚ :=
  detArea a + detArea b - interArea a b

/-- iou helper of nms (main.py lines 161-166): 0 when the union
denominator is not positive. -/
def iou (a b : Det) : ℚ :=
  if unionArea a b ≤ 0 then 0 else interArea a b / unionArea a b

/-- The sort key relation of main.py line 158: descending by score.
sorted(..., key=score, reverse=True) is a stable sort, which insertion
sort with this non-strict relation reproduces exactly. -/
def scoreGE (a b : Det) : Prop := b.score ≤ a.score

instance : DecidableRel scoreGE :=
  fun a b => inferInstanceAs (Decidable (b.score ≤ a.score))

instance : IsTotal Det scoreGE := ⟨fun a b => le_total b.score a.score⟩

instance : IsTrans Det scoreGE := ⟨fun _ _ _ h1 h2 => le_trans h2 h1⟩

/-- dets = sorted(dets, key=lambda d: d["score"], reverse=True)
(main.py line 158). -/
def sortByScoreDesc (l : List Det) : List Det := l.insertionSort scoreGE

/-- The keep loop of nms (main.py lines 168-177): a candidate is kept
when its iou with every kept box is at most iou_thresh; the loop breaks
once max_det boxes have been kept. -/
def nmsLoop (iou_thresh : ℚ) (max_det : ℕ) : List Det → List Det → List Det
  | keep, [] => keep
  | keep, d :: rest =>
    if ∀ k ∈ keep, iou d k ≤ iou_thresh then
      if max_det ≤ keep.length + 1 then keep ++ [d]
      else nmsLoop iou_thresh max_det (keep ++ [d]) rest
    else nmsLoop iou_thresh max_det keep rest

/-- nms (main.py lines 155-178). -/
def nms (dets : List Det) (iou_thresh : ℚ := 45/100) (max_det : ℕ := 50) : List Det :=
  if dets = [] then []
  else nmsLoop iou_thresh max_det [] (sortByScoreDesc dets)

/-- The earliest input detection of maximal score: the fold keeps the
current best and replaces it only on a strictly larger score. -/
def firstMaxDet (d : Det) (rest : List Det) : Det :=
  rest.foldl (fun b x => if b.score < x.score then x else b) d

/-- JSON-ish values of the inbound websocket message, as produced by
receive_json (main.py line 188).  Containers only record emptiness,
which is all Python truthiness needs of them. -/
inductive JVal where
  | num (q : ℚ)
  | str (s : String)
  | bool (b : Bool)
  | null
  | arr (isEmpty : Bool)
  | obj (isEmpty : Bool)
deriving DecidableEq

/-- A JSON object: association list of fields. -/
abbrev PyDict := List (String × JVal)

/-- Digits of a decimal literal; none when empty or containing a
non-digit character. -/
def digitsToNat : List Char → Option ℕ
  | [] => none
  | cs => cs.foldlM
      (fun acc c => if c.isDigit then some (acc * 10 + (c.toNat - '0'.toNat)) else none) 0

/-- Integer-literal parsing for Python's int(str): optional sign then
decimal digits (surrounding whitespace and underscores, which Python
also accepts, are not modelled; no claim depends on them). -/
def pyParseInt (s : String) : Option ℤ :=
  match s.data with
  | '-' :: rest => (digitsToNat rest).map (fun n => -(n : ℤ))
  | cs => (digitsToNat cs).map (fun n => (n : ℤ))

/-- Truncation toward zero: Python's int() on a number. -/
def truncQ (q : ℚ) : ℤ := if 0 ≤ q then ⌊q⌋ else ⌈q⌉

/-- Python int(v) on a JSON value (main.py line 195): numbers truncate,
integer-literal strings parse, booleans map to 0/1, everything else
raises. -/
def pyInt : JVal → Except String ℤ
  | .num q => .ok (truncQ q)
  | .str s =>
    match pyParseInt s with
    | some n => .ok n
    | none => .error ("invalid literal for int() with base 10: " ++ s)
  | .bool b => .ok (if b then 1 else 0)
  | .null => .error "int() argument must be a string, a bytes-like object or a real number, not NoneType"
  | .arr _ => .error "int() argument must be a string, a bytes-like object or a real number, not list"
  | .obj _ => .error "int() argument must be a string, a bytes-like object or a real number, not dict"

/-- Python float(v) on a JSON value (main.py line 196).  Strings are
modelled for integer literals only; fractional literals, which the
transport never sends for capture_ts, are treated as unparsable. -/
def pyFloat : JVal → Except String ℚ
  | .num q => .ok q
  | .str s =>
    match pyParseInt s with
    | some n => .ok (n : ℚ)
    | none => .error ("could not convert string to float: " ++ s)
  | .bool b => .ok (if b then 1 else 0)
  | .null => .error "float() argument must be a string or a real number, not NoneType"
  | .arr _ => .error "float() argument must be a string or a real number, not list"
  | .obj _ => .error "float() argument must be a string or a real number, not dict"

/-- Python truthiness of a JSON value (the test of main.py line 198). -/
def pyTruthy : JVal → Bool
  | .num q => decide (q ≠ 0)
  | .str s => decide (s ≠ "")
  | .bool b => b
  | .null => false
  | .arr isEmpty => !isEmpty
  | .obj isEmpty => !isEmpty

/-- Truthiness of dict.get's result: an absent key is None, hence falsy. -/
def pyTruthyOpt : Option JVal → Bool
  | none => false
  | some v => pyTruthy v

/-- An outbound websocket message of detect_ws.  Timing fields
(recv_ts, inference_ts, inference_ms), which read the wall clock, are
outside the embedding. -/
inductive Reply where
  | errorOnly (err : String)
  | frameError (frame_id : ℤ) (err : String)
  | frameResult (frame_id : ℤ) (capture_ts : ℚ) (dets : List Det)
deriving DecidableEq

/-- What one iteration of the detect_ws receive loop does with a
received message: continue silently, continue after sending a reply,
or terminate the handler by an uncaught exception. -/
inductive Outcome where
  | crash (e : String)
  | dropped
  | reply (r : Reply)
deriving DecidableEq

/-- An outcome after which the receive loop keeps accepting frames. -/
def Outcome.continues : Outcome → Bool
  | .crash _ => false
  | .dropped => true
  | .reply _ => true

/-- An outcome that answers the frame with an error message. -/
def Outcome.isErrorReply : Outcome → Bool
  | .reply (.errorOnly _) => true
  | .reply (.frameError _ _) => true
  | _ => false

/-- The per-frame body of detect_ws (main.py lines 195-227) on one
received JSON object.  decodeImg stands for decode_image_from_b64
(external image codec; its value is the decoded image's width and
height, its error an exception).  infer stands for the inference-engine
call together with the selection of the first named output.  The
frame_id and capture_ts coercions of lines 195-196 run before the try
block, so their exceptions are uncaught and terminate the handler;
every exception inside the try block becomes a frame_id/error reply. -/
def processFrame (npExp : ℚ → ℚ) (decodeImg : Except String (ℕ × ℕ))
    (infer : Except String RawOutput) (msg : PyDict) : Outcome :=
  match pyInt ((msg.lookup "frame_id").getD (.num (-1))) with
  | .error e => .crash e
  | .ok frame_id =>
    match pyFloat ((msg.lookup "capture_ts").getD (.num 0)) with
    | .error e => .crash e
    | .ok capture_ts =>
      if pyTruthyOpt (msg.lookup "image_b64") then
        match decodeImg with
        | .error e => .reply (.frameError frame_id e)
        | .ok (w, h) =>
          match preprocess_letterbox (w : ℤ) (h : ℤ) MODEL_INPUT_SIZE with
          | .error e => .reply (.frameError frame_id e)
          | .ok lb =>
            match infer with
            | .error e => .reply (.frameError frame_id e)
            | .ok out =>
              match decode_yolov8 npExp out lb (25/100) with
              | .error e => .reply (.frameError frame_id e)
              | .ok dets => .reply (.frameResult frame_id capture_ts (nms dets (45/100) 50))
      else .reply (.errorOnly "missing image_b64")

/-! Concrete data used by witnesses and counterexamples. -/

/-- A concrete stand-in for numpy's exponential; the witness tensors
keep all scores inside the unit interval, so the sigmoid branch is
never taken and the stand-in is never applied. -/
def exp0 : ℚ → ℚ := fun q => q

/-- Letterbox geometry of a 320x320 source at model size 320. -/
def lb320 : Letterbox := ⟨0, 0, 320, 320, 320, 320, 320⟩

/-- A (1, 1, 6) output: one candidate, two classes, box-first layout. -/
def raw16 : RawOutput :=
  ⟨[1, 1, 6], fun r c =>
    if r = 0 then
      if c = 0 then 160 else if c = 1 then 160 else if c = 2 then 100
      else if c = 3 then 100 else if c = 4 then 9/10 else 0
    else 0⟩

/-- The single detection decoded from raw16 under lb320. -/
def det16 : Det := ⟨0, 9/10, 11/32, 11/32, 21/32, 21/32⟩

/-- A square (1, 6, 6) output on which the two layout readings differ:
row 0 encodes one candidate under the transposed reading, column 0
encodes a different box under the channel-first reading. -/
def raw66 : RawOutput :=
  ⟨[1, 6, 6], fun r c =>
    if r = 0 then
      if c = 0 then 160 else if c = 1 then 160 else if c = 2 then 100
      else if c = 3 then 100 else if c = 4 then 9/10 else 0
    else if c = 0 then
      if r = 1 then 160 else if r = 2 then 200 else if r = 3 then 200
      else if r = 4 then 9/10 else 0
    else 0⟩

/-- What decode_yolov8 produces from raw66 (transposed reading). -/
def det66code : Det := ⟨0, 9/10, 11/32, 11/32, 21/32, 21/32⟩

/-- What the specification's layout rule produces from raw66
(channel-first reading). -/
def det66spec : Det := ⟨0, 9/10, 3/16, 3/16, 13/16, 13/16⟩

/-- A rank-2 output tensor: an unexpected shape for the decoder. -/
def rawRank2 : RawOutput := ⟨[5, 5], fun _ _ => 0⟩

/-- A well-formed inbound frame message. -/
def msgGood : PyDict := [("frame_id", .num 7), ("capture_ts", .num 0), ("image_b64", .str "x")]

/-- A frame message whose frame_id is not numerically coercible. -/
def msgBadId : PyDict := [("frame_id", .str "abc"), ("image_b64", .str "x")]

/-- A frame message without an image_b64 field. -/
def msgNoImage : PyDict := [("frame_id", .num 7)]

/-- A single unit-square detection. -/
def detUnit : Det := ⟨0, 9/10, 0, 0, 1, 1⟩

/-- Two disjoint detections with distinct scores. -/
def detA : Det := ⟨0, 1/2, 0, 0, 1/4, 1/4⟩

/-- Second of the two disjoint detections; higher score. -/
def detB : Det := ⟨1, 3/4, 1/2, 1/2, 1, 1⟩

/-! Helper lemmas. -/

theorem clamp01_nonneg (q : ℚ) : 0 ≤ clamp01 q := le_max_left _ _

theorem clamp01_le_one (q : ℚ) : clamp01 q ≤ 1 :=
  max_le (by norm_num) (min_le_left _ _)

theorem pyRound_le_ceil (q : ℚ) : pyRound q ≤ ⌈q⌉ := by
  unfold pyRound
  dsimp only
  split_ifs with h1 h2 h3
  · exact Int.floor_le_ceil q
  · have hq : (⌊q⌋ : ℚ) < q := by nlinarith [Int.sub_one_lt_floor q]
    have : (⌊q⌋ : ℚ) < (⌈q⌉ : ℚ) := lt_of_lt_of_le hq (Int.le_ceil q)
    exact_mod_cast Int.add_one_le_of_lt (by exact_mod_cast this)
  · exact Int.floor_le_ceil q
  · have hq : (⌊q⌋ : ℚ) < q := by
      have hr : q - ⌊q⌋ = 1/2 := le_antisymm (not_lt.1 h2) (not_lt.1 h1)
      nlinarith
    have : (⌊q⌋ : ℚ) < (⌈q⌉ : ℚ) := lt_of_lt_of_le hq (Int.le_ceil q)
    exact_mod_cast Int.add_one_le_of_lt (by exact_mod_cast this)

theorem pyRound_le_of_le {q : ℚ} {m : ℤ} (h : q ≤ (m : ℚ)) : pyRound q ≤ m :=
  le_trans (pyRound_le_ceil q) (Int.ceil_le.2 h)

theorem decodeMatrix_mem_bounds {npExp : ℚ → ℚ} {nc np2 : ℕ} {x : ℕ → ℕ → ℚ}
    {lb : Letterbox} {th : ℚ} {dets : List Det} {d : Det}
    (hok : decodeMatrix npExp nc np2 x lb th = .ok dets) (hd : d ∈ dets) : detBounds d := by
  unfold decodeMatrix at hok
  dsimp only at hok
  split_ifs at hok with hzero hsig
  all_goals
    first
    | exact Except.noConfusion hok
    | (rw [Except.ok.injEq] at hok
       subst hok
       rw [List.mem_filterMap] at hd
       obtain ⟨j, _, hf⟩ := hd
       dsimp only at hf
       split_ifs at hf with hth hdeg
       all_goals
         first
         | exact Option.noConfusion hf
         | (rw [Option.some.injEq] at hf
            push_neg at hdeg
            subst hf
            exact ⟨clamp01_nonneg _, hdeg.1, clamp01_le_one _,
                   clamp01_nonneg _, hdeg.2, clamp01_le_one _⟩))

theorem decode_mem_bounds {npExp : ℚ → ℚ} {out : RawOutput} {lb : Letterbox}
    {th : ℚ} {dets : List Det} {d : Det}
    (hok : decode_yolov8 npExp out lb th = .ok dets) (hd : d ∈ dets) : detBounds d := by
  unfold decode_yolov8 at hok
  split at hok
  case h_2 =>
    rw [Except.ok.injEq] at hok
    subst hok
    exact absurd hd (List.not_mem_nil d)
  case h_1 d0 d1 d2 =>
    split_ifs at hok with hentry hzero hcf
    all_goals
      first
      | exact Except.noConfusion hok
      | exact decodeMatrix_mem_bounds hok hd
      | (rw [Except.ok.injEq] at hok
         subst hok
         exact absurd hd (List.not_mem_nil d))

theorem interArea_comm (a b : Det) : interArea a b = interArea b a := by
  rw [interArea, interArea, min_comm b.xmax, max_comm b.xmin, min_comm b.ymax, max_comm b.ymin]

theorem unionArea_comm (a b : Det) : unionArea a b = unionArea b a := by
  rw [unionArea, unionArea, interArea_comm, add_comm]

theorem iou_comm (a b : Det) : iou a b = iou b a := by
  rw [iou, iou, unionArea_comm, interArea_comm]

theorem nmsLoop_starts (th : ℚ) (md : ℕ) :
    ∀ (l keep : List Det), ∃ t, nmsLoop th md keep l = keep ++ t := by
  intro l
  induction l with
  | nil => intro keep; exact ⟨[], by simp [nmsLoop]⟩
  | cons d rest ih =>
    intro keep
    rw [nmsLoop]
    split_ifs with hall hbrk
    · exact ⟨[d], rfl⟩
    · obtain ⟨t, ht⟩ := ih (keep ++ [d])
      exact ⟨[d] ++ t, by rw [ht, List.append_assoc]⟩
    · exact ih keep

theorem nmsLoop_sublist (th : ℚ) (md : ℕ) :
    ∀ (l keep : List Det), List.Sublist (nmsLoop th md keep l) (keep ++ l) := by
  intro l
  induction l with
  | nil => intro keep; simp [nmsLoop]
  | cons d rest ih =>
    intro keep
    rw [nmsLoop]
    split_ifs with hall hbrk
    · exact (List.append_sublist_append_left keep).2 (by simp)
    · have h1 := ih (keep ++ [d])
      rw [List.append_assoc] at h1
      exact h1
    · exact (ih keep).trans ((List.append_sublist_append_left keep).2 (List.sublist_cons_self d rest))

theorem nmsLoop_pairwise (th : ℚ) (md : ℕ) :
    ∀ (l keep : List Det), List.Pairwise (fun a b => iou b a ≤ th) keep →
      List.Pairwise (fun a b => iou b a ≤ th) (nmsLoop th md keep l) := by
  intro l
  induction l with
  | nil => intro keep hk; simpa [nmsLoop] using hk
  | cons d rest ih =>
    intro keep hk
    rw [nmsLoop]
    have happ : (∀ k ∈ keep, iou d k ≤ th) →
        List.Pairwise (fun a b => iou b a ≤ th) (keep ++ [d]) := by
      intro hall
      rw [List.pairwise_append]
      exact ⟨hk, List.pairwise_singleton _ _, fun a ha b hb => by
        rw [List.mem_singleton] at hb; subst hb; exact hall a ha⟩
    split_ifs with hall hbrk
    · exact happ hall
    · exact ih (keep ++ [d]) (happ hall)
    · exact ih keep hk

theorem nmsLoop_length_le (th : ℚ) (md : ℕ) :
    ∀ (l keep : List Det), keep.length < md → (nmsLoop th md keep l).length ≤ md := by
  intro l
  induction l with
  | nil => intro keep hlt; rw [nmsLoop]; exact le_of_lt hlt
  | cons d rest ih =>
    intro keep hlt
    rw [nmsLoop]
    split_ifs with hall hbrk
    · simpa using hlt
    · exact ih (keep ++ [d]) (by simpa using lt_of_not_le hbrk)
    · exact ih keep hlt

theorem nmsLoop_length_le_max (th : ℚ) (md : ℕ) :
    ∀ (l keep : List Det), (nmsLoop th md keep l).length ≤ max md (keep.length + 1) := by
  intro l
  induction l with
  | nil =>
    intro keep
    rw [nmsLoop]
    exact le_trans (Nat.le_succ _) (le_max_right _ _)
  | cons d rest ih =>
    intro keep
    rw [nmsLoop]
    split_ifs with hall hbrk
    · simp only [List.length_append, List.length_singleton]
      exact le_max_right md (keep.length + 1)
    · have h1 := ih (keep ++ [d])
      have h2 : keep.length + 1 + 1 ≤ md := by
        have := lt_of_not_le hbrk
        omega
      have h3 : max md ((keep ++ [d]).length + 1) = md := by
        simp only [List.length_append, List.length_singleton]
        omega
      rw [h3] at h1
      exact le_trans h1 (le_max_left _ _)
    · exact ih keep

theorem nmsLoop_all_kept (th : ℚ) (md : ℕ) :
    ∀ (l keep : List Det), (∀ d ∈ l, ∀ k ∈ keep, iou d k ≤ th) →
      List.Pairwise (fun a b => iou b a ≤ th) l →
      (l.length ≤ 1 ∨ keep.length + l.length ≤ md) →
      nmsLoop th md keep l = keep ++ l := by
  intro l
  induction l with
  | nil => intro keep _ _ _; simp [nmsLoop]
  | cons d rest ih =>
    intro keep h1 h2 h3
    rw [nmsLoop, if_pos (fun k hk => h1 d (List.mem_cons_self d rest) k hk)]
    by_cases hbrk : md ≤ keep.length + 1
    · rw [if_pos hbrk]
      have hlen : rest.length = 0 := by
        rcases h3 with h3 | h3
        · simp only [List.length_cons] at h3; omega
        · simp only [List.length_cons] at h3; omega
      have hrest := List.eq_nil_of_length_eq_zero hlen
      subst hrest
      rfl
    · rw [if_neg hbrk]
      have h1' : ∀ e ∈ rest, ∀ k ∈ keep ++ [d], iou e k ≤ th := by
        intro e he k hk
        rcases List.mem_append.1 hk with hk | hk
        · exact h1 e (List.mem_cons_of_mem d he) k hk
        · rw [List.mem_singleton] at hk
          subst hk
          exact (List.pairwise_cons.1 h2).1 e he
      have h2' := (List.pairwise_cons.1 h2).2
      have h3' : rest.length ≤ 1 ∨ (keep ++ [d]).length + rest.length ≤ md := by
        rcases h3 with h3 | h3
        · simp only [List.length_cons] at h3
          left; omega
        · simp only [List.length_cons] at h3
          right
          simp only [List.length_append, List.length_singleton]
          omega
      rw [ih (keep ++ [d]) h1' h2' h3', List.append_assoc]
      rfl

theorem mem_of_mem_nms {dets : List Det} {th : ℚ} {md : ℕ} {d : Det}
    (hd : d ∈ nms dets th md) : d ∈ dets := by
  unfold nms at hd
  split_ifs at hd with h0
  · exact absurd hd (List.not_mem_nil d)
  · have hsub := nmsLoop_sublist th md (sortByScoreDesc dets) []
    rw [List.nil_append] at hsub
    have hmem := hsub.subset hd
    rwa [sortByScoreDesc, List.mem_insertionSort] at hmem

/-- C9: greedy NMS is idempotent: applying nms with the same iou_thresh
and max_det to its own output returns that output unchanged. -/
theorem nms_idempotent (dets : List Det) (th : ℚ) (md : ℕ) :
    nms (nms dets th md) th md = nms dets th md := by
  by_cases h0 : dets = []
  · subst h0; rfl
  · have hdef : nms dets th md = nmsLoop th md [] (sortByScoreDesc dets) := by
      rw [nms, if_neg h0]
    have hsubl : List.Sublist (nms dets th md) (sortByScoreDesc dets) := by
      rw [hdef]
      simpa using nmsLoop_sublist th md (sortByScoreDesc dets) []
    have hsorted : List.Pairwise scoreGE (nms dets th md) :=
      List.Pairwise.sublist hsubl (List.sorted_insertionSort scoreGE dets)
    have hpair : List.Pairwise (fun a b => iou b a ≤ th) (nms dets th md) := by
      rw [hdef]
      exact nmsLoop_pairwise th md (sortByScoreDesc dets) [] List.Pairwise.nil
    have hlen : (nms dets th md).length ≤ max md 1 := by
      rw [hdef]
      simpa using nmsLoop_length_le_max th md (sortByScoreDesc dets) []
    by_cases hK0 : nms dets th md = []
    · rw [hK0]; rfl
    · rw [nms, if_neg hK0]
      have hsorteq : sortByScoreDesc (nms dets th md) = nms dets th md :=
        List.Sorted.insertionSort_eq hsorted
      rw [hsorteq]
      have hall : ∀ d ∈ nms dets th md, ∀ k ∈ ([] : List Det), iou d k ≤ th := by simp
      have h3 : (nms dets th md).length ≤ 1 ∨
          ([] : List Det).length + (nms dets th md).length ≤ md := by
        rcases le_total md 1 with hmd | hmd
        · rw [max_eq_right hmd] at hlen
          exact Or.inl hlen
        · rw [max_eq_left hmd] at hlen
          exact Or.inr (by simpa using hlen)
      rw [nmsLoop_all_kept th md (nms dets th md) [] hall hpair h3, List.nil_append]

theorem pickFold_score_le (l : List Det) :
    ∀ a : Det, a.score ≤ (l.foldl (fun b x => if b.score < x.score then x else b) a).score := by
  induction l with
  | nil => intro a; simp
  | cons x xs ih =>
    intro a
    simp only [List.foldl_cons]
    by_cases hax : a.score < x.score
    · rw [if_pos hax]
      exact le_of_lt (lt_of_lt_of_le hax (ih x))
    · rw [if_neg hax]
      exact ih a

theorem pickFold_seed (l : List Det) : ∀ a b : Det, b.score ≤ a.score →
    l.foldl (fun b x => if b.score < x.score then x else b) a =
      if a.score < (l.foldl (fun b x => if b.score < x.score then x else b) b).score
      then l.foldl (fun b x => if b.score < x.score then x else b) b else a := by
  induction l with
  | nil =>
    intro a b hba
    simp only [List.foldl_nil]
    rw [if_neg (not_lt.2 hba)]
  | cons x xs ih =>
    intro a b hba
    simp only [List.foldl_cons]
    by_cases hax : a.score < x.score
    · have hbx : b.score < x.score := lt_of_le_of_lt hba hax
      rw [if_pos hax, if_pos hbx, if_pos (lt_of_lt_of_le hax (pickFold_score_le xs x))]
    · by_cases hbx : b.score < x.score
      · rw [if_neg hax, if_pos hbx]
        exact ih a x (not_lt.1 hax)
      · rw [if_neg hax, if_neg hbx]
        exact ih a b hba

theorem sortDesc_head (rest : List Det) : ∀ d : Det,
    (sortByScoreDesc (d :: rest)).head? = some (firstMaxDet d rest) := by
  induction rest with
  | nil => intro d; rfl
  | cons r rs ih =>
    intro d
    obtain ⟨m, S', hS⟩ : ∃ m S', List.insertionSort scoreGE (r :: rs) = m :: S' := by
      cases hcase : List.insertionSort scoreGE (r :: rs) with
      | nil =>
        have hlen := congrArg List.length hcase
        rw [List.length_insertionSort] at hlen
        exact absurd hlen (by simp)
      | cons m S' => exact ⟨m, S', rfl⟩
    have hm : m = firstMaxDet r rs := by
      have hh := ih r
      unfold sortByScoreDesc at hh
      rw [hS] at hh
      simpa using hh
    show (List.orderedInsert scoreGE d (List.insertionSort scoreGE (r :: rs))).head? =
      some (firstMaxDet d (r :: rs))
    rw [hS, List.orderedInsert]
    have hfold : rs.foldl (fun b x => if b.score < x.score then x else b) r = m := hm.symm
    have hfm : firstMaxDet d (r :: rs) =
        rs.foldl (fun b x => if b.score < x.score then x else b)
          (if d.score < r.score then r else d) := by
      rw [firstMaxDet, List.foldl_cons]
    by_cases hdm : scoreGE d m
    · have hmd : m.score ≤ d.score := hdm
      have hrd : ¬ d.score < r.score := by
        have hrm : r.score ≤ (firstMaxDet r rs).score := pickFold_score_le rs r
        rw [← hm] at hrm
        exact not_lt.2 (le_trans hrm hmd)
      have hfd : firstMaxDet d (r :: rs) = d := by
        rw [hfm, if_neg hrd, pickFold_seed rs d r (not_lt.1 hrd), hfold,
            if_neg (not_lt.2 hmd)]
      rw [if_pos hdm, hfd]
      rfl
    · have hdm' : d.score < m.score := lt_of_not_le hdm
      have hfd : firstMaxDet d (r :: rs) = m := by
        rw [hfm]
        by_cases hdr : d.score < r.score
        · rw [if_pos hdr]
          exact hfold
        · rw [if_neg hdr, pickFold_seed rs d r (not_lt.1 hdr), hfold, if_pos hdm']
      rw [if_neg hdm, hfd]
      rfl

/-- C10: for a non-empty candidate list and max_det at least 1, nms
returns a non-empty list whose first element is the earliest
highest-scoring input detection: the top candidate is never
suppressed. -/
theorem nms_top_kept (d : Det) (rest : List Det) (th : ℚ) (md : ℕ) (hmd : 1 ≤ md) :
    nms (d :: rest) th md ≠ [] ∧
    (nms (d :: rest) th md).head? = some (firstMaxDet d rest) := by
  rw [nms, if_neg (by simp)]
  obtain ⟨m, S', hS⟩ : ∃ m S', sortByScoreDesc (d :: rest) = m :: S' := by
    cases hcase : sortByScoreDesc (d :: rest) with
    | nil =>
      have hlen := congrArg List.length hcase
      rw [sortByScoreDesc, List.length_insertionSort] at hlen
      exact absurd hlen (by simp)
    | cons m S' => exact ⟨m, S', rfl⟩
  have hm : m = firstMaxDet d rest := by
    have hh := sortDesc_head rest d
    rw [hS] at hh
    simpa using hh
  rw [hS, nmsLoop, if_pos (by simp)]
  by_cases hbrk : md ≤ ([] : List Det).length + 1
  · rw [if_pos hbrk]
    subst hm
    exact ⟨by simp, by simp⟩
  · rw [if_neg hbrk]
    obtain ⟨t, ht⟩ := nmsLoop_starts th md S' ([] ++ [m])
    rw [ht]
    subst hm
    exact ⟨by simp, by simp⟩

/-- C10 witness: on the concrete pair detA, detB the top-scoring
detection detB heads the output. -/
theorem nms_top_kept_witness :
    nms (detA :: [detB]) (45/100) 50 ≠ [] ∧
    (nms (detA :: [detB]) (45/100) 50).head? = some (firstMaxDet detA [detB]) :=
  nms_top_kept detA [detB] (45/100) 50 (by decide)

/-- C2 counterexample: with max_det = 0 the break of the keep loop fires
only after the first append, so a singleton input yields one kept box
and the claimed length bound fails; the claim needs max_det at least 1. -/
theorem nms_maxdet_zero_exceeds :
    (nms [detUnit] (45/100) 0).length = 1 ∧
    ¬ ((nms [detUnit] (45/100) 0).length ≤ 0) := by
  have h : nms [detUnit] (45/100) 0 = [detUnit] := by
    rw [nms, if_neg (by simp)]
    have hs : sortByScoreDesc [detUnit] = [detUnit] := rfl
    rw [hs, nmsLoop, if_pos (by simp), if_pos (by simp)]
    rfl
  rw [h]
  simp

/-- C2 (amended): for max_det at least 1, the nms output is a
subsequence of the stable descending sort of its input, has length at
most max_det, no two kept boxes have iou above iou_thresh, and the iou
of a pair with nonpositive union denominator is 0 rather than an
error.  (As stated the claim fails at max_det = 0, where one box is
kept; see the counterexample.) -/
theorem nms_sound (dets : List Det) (th : ℚ) (md : ℕ) (hmd : 1 ≤ md) :
    List.Sublist (nms dets th md) (sortByScoreDesc dets) ∧
    (nms dets th md).length ≤ md ∧
    List.Pairwise (fun a b => iou a b ≤ th) (nms dets th md) ∧
    (∀ a b : Det, unionArea a b ≤ 0 → iou a b = 0) := by
  by_cases h0 : dets = []
  · subst h0
    refine ⟨by simp [nms], by simp [nms], by simp [nms], ?_⟩
    intro a b hab
    rw [iou, if_pos hab]
  · have hdef : nms dets th md = nmsLoop th md [] (sortByScoreDesc dets) := by
      rw [nms, if_neg h0]
    refine ⟨?_, ?_, ?_, ?_⟩
    · rw [hdef]
      simpa using nmsLoop_sublist th md (sortByScoreDesc dets) []
    · rw [hdef]
      exact nmsLoop_length_le th md (sortByScoreDesc dets) [] (by simpa using hmd)
    · have hp : List.Pairwise (fun a b => iou b a ≤ th) (nms dets th md) := by
        rw [hdef]
        exact nmsLoop_pairwise th md (sortByScoreDesc dets) [] List.Pairwise.nil
      exact hp.imp (fun {a b} h => le_of_eq_of_le (iou_comm a b) h)
    · intro a b hab
      rw [iou, if_pos hab]

/-- C2 witness: the amended statement instantiated on a concrete
two-element list with the source's default parameters. -/
theorem nms_sound_witness :
    List.Sublist (nms [detA, detB] (45/100) 50) (sortByScoreDesc [detA, detB]) ∧
    (nms [detA, detB] (45/100) 50).length ≤ 50 ∧
    List.Pairwise (fun a b => iou a b ≤ 45/100) (nms [detA, detB] (45/100) 50) ∧
    (∀ a b : Det, unionArea a b ≤ 0 → iou a b = 0) :=
  nms_sound [detA, detB] (45/100) 50 (by decide)

/-- C3 (amended): for an entering 3-D output shape with nonzero batch
dimension, the decoder takes the channel-first reading exactly when the
first non-batch dimension is at least 6 and strictly smaller than the
second; in every other entering case, equality of the two dimensions
included, the matrix is transposed (box-first reading). -/
theorem decode_layout (npExp : ℚ → ℚ) (d0 d1 d2 : ℕ) (mat : ℕ → ℕ → ℚ)
    (lb : Letterbox) (th : ℚ) (h0 : 0 < d0) (hentry : 6 ≤ d1 ∨ 6 ≤ d2) :
    decode_yolov8 npExp ⟨[d0, d1, d2], mat⟩ lb th =
      if 6 ≤ d1 ∧ d1 < d2 then decodeMatrix npExp (d1 - 4) d2 mat lb th
      else decodeMatrix npExp (d2 - 4) d1 (fun i j => mat j i) lb th := by
  show (if 6 ≤ d1 ∨ 6 ≤ d2 then
      if d0 = 0 then Except.error "index 0 is out of bounds for axis 0 with size 0"
      else if 6 ≤ d1 ∧ d1 < d2 then decodeMatrix npExp (d1 - 4) d2 mat lb th
      else decodeMatrix npExp (d2 - 4) d1 (fun i j => mat j i) lb th
    else .ok []) = _
  rw [if_pos hentry, if_neg (by omega : ¬ d0 = 0)]

/-- C3 witness: the amended layout rule applied at the equal-dimension
shape (1, 6, 6), where the transposed reading is taken. -/
theorem decode_layout_witness :
    decode_yolov8 exp0 ⟨[1, 6, 6], raw66.mat⟩ lb320 (1/4) =
      if 6 ≤ 6 ∧ 6 < 6 then decodeMatrix exp0 (6 - 4) 6 raw66.mat lb320 (1/4)
      else decodeMatrix exp0 (6 - 4) 6 (fun i j => raw66.mat j i) lb320 (1/4) :=
  decode_layout exp0 1 6 6 raw66.mat lb320 (1/4) (by decide) (by decide)

/-- C3 counterexample: on the square shape (1, 6, 6) the code transposes
(box-first reading) while the specification's rule (first dimension at
most the second) prescribes the channel-first reading, and the two
readings decode different boxes from the same tensor. -/
theorem decode_layout_equal_dims_refuted :
    decode_yolov8 exp0 raw66 lb320 (1/4) = .ok [det66code] ∧
    decode_yolov8_spec exp0 raw66 lb320 (1/4) = .ok [det66spec] ∧
    det66code ≠ det66spec := by
  refine ⟨?_, ?_, by norm_num [det66code, det66spec, Det.mk.injEq]⟩
  · have hstep : decode_yolov8 exp0 raw66 lb320 (1/4) =
        decodeMatrix exp0 2 6 (fun i j => raw66.mat j i) lb320 (1/4) := rfl
    rw [hstep]
    norm_num [decodeMatrix, raw66, lb320, det66code, exp0, scoreEntries, listMax, listMin,
      argmaxCol, clamp01, show List.range 6 = [0,1,2,3,4,5] from rfl,
      show List.range 2 = [0,1] from rfl, List.filterMap_cons, max_def, min_def]
  · have hstep : decode_yolov8_spec exp0 raw66 lb320 (1/4) =
        decodeMatrix exp0 2 6 raw66.mat lb320 (1/4) := rfl
    rw [hstep]
    norm_num [decodeMatrix, raw66, lb320, det66spec, exp0, scoreEntries, listMax, listMin,
      argmaxCol, clamp01, show List.range 6 = [0,1,2,3,4,5] from rfl,
      show List.range 2 = [0,1] from rfl, List.filterMap_cons, max_def, min_def]

theorem processFrame_run (npExp : ℚ → ℚ) (dI : Except String (ℕ × ℕ))
    (inf : Except String RawOutput) {msg : PyDict} {fid : ℤ} {cap : ℚ}
    (hfid : pyInt ((msg.lookup "frame_id").getD (.num (-1))) = .ok fid)
    (hcap : pyFloat ((msg.lookup "capture_ts").getD (.num 0)) = .ok cap) :
    processFrame npExp dI inf msg =
      if pyTruthyOpt (msg.lookup "image_b64") then
        match dI with
        | .error e => .reply (.frameError fid e)
        | .ok (w, h) =>
          match preprocess_letterbox (w : ℤ) (h : ℤ) MODEL_INPUT_SIZE with
          | .error e => .reply (.frameError fid e)
          | .ok lb =>
            match inf with
            | .error e => .reply (.frameError fid e)
            | .ok out =>
              match decode_yolov8 npExp out lb (25/100) with
              | .error e => .reply (.frameError fid e)
              | .ok dets => .reply (.frameResult fid cap (nms dets (45/100) 50))
      else .reply (.errorOnly "missing image_b64") := by
  unfold processFrame
  rw [hfid, hcap]

theorem preprocess_320 :
    preprocess_letterbox ((320 : ℕ) : ℤ) ((320 : ℕ) : ℤ) MODEL_INPUT_SIZE = .ok lb320 := by
  unfold preprocess_letterbox MODEL_INPUT_SIZE letterboxGeometry
  norm_num [pyRound, min_def, lb320, Letterbox.mk.injEq,
    show Int.fdiv (0 : ℤ) 2 = 0 from by decide]

theorem preprocess_64 :
    preprocess_letterbox ((64 : ℕ) : ℤ) ((64 : ℕ) : ℤ) MODEL_INPUT_SIZE =
      .ok ⟨0, 0, 320, 320, 320, 64, 64⟩ := by
  unfold preprocess_letterbox MODEL_INPUT_SIZE letterboxGeometry
  norm_num [pyRound, min_def, Letterbox.mk.injEq,
    show Int.fdiv (0 : ℤ) 2 = 0 from by decide]

theorem processFrame_imageErr (npExp : ℚ → ℚ) (inf : Except String RawOutput)
    {msg : PyDict} {fid : ℤ} {cap : ℚ} (e : String)
    (hfid : pyInt ((msg.lookup "frame_id").getD (.num (-1))) = .ok fid)
    (hcap : pyFloat ((msg.lookup "capture_ts").getD (.num 0)) = .ok cap)
    (htr : pyTruthyOpt (msg.lookup "image_b64") = true) :
    processFrame npExp (.error e) inf msg = .reply (.frameError fid e) := by
  rw [processFrame_run npExp (.error e) inf hfid hcap, if_pos htr]

theorem processFrame_preErr (npExp : ℚ → ℚ) (inf : Except String RawOutput)
    {msg : PyDict} {fid : ℤ} {cap : ℚ} (w h : ℕ) (e : String)
    (hfid : pyInt ((msg.lookup "frame_id").getD (.num (-1))) = .ok fid)
    (hcap : pyFloat ((msg.lookup "capture_ts").getD (.num 0)) = .ok cap)
    (htr : pyTruthyOpt (msg.lookup "image_b64") = true)
    (hpre : preprocess_letterbox (w : ℤ) (h : ℤ) MODEL_INPUT_SIZE = .error e) :
    processFrame npExp (.ok (w, h)) inf msg = .reply (.frameError fid e) := by
  rw [processFrame_run npExp (.ok (w, h)) inf hfid hcap, if_pos htr]
  simp only [hpre]

theorem processFrame_inferErr (npExp : ℚ → ℚ) {msg : PyDict} {fid : ℤ} {cap : ℚ}
    (w h : ℕ) (g : Letterbox) (e : String)
    (hfid : pyInt ((msg.lookup "frame_id").getD (.num (-1))) = .ok fid)
    (hcap : pyFloat ((msg.lookup "capture_ts").getD (.num 0)) = .ok cap)
    (htr : pyTruthyOpt (msg.lookup "image_b64") = true)
    (hg : preprocess_letterbox (w : ℤ) (h : ℤ) MODEL_INPUT_SIZE = .ok g) :
    processFrame npExp (.ok (w, h)) (.error e) msg = .reply (.frameError fid e) := by
  rw [processFrame_run npExp (.ok (w, h)) (.error e) hfid hcap, if_pos htr]
  simp only [hg]

theorem processFrame_success (npExp : ℚ → ℚ) {msg : PyDict} {fid : ℤ} {cap : ℚ}
    (w h : ℕ) (out : RawOutput) (g : Letterbox) (dec : List Det)
    (hfid : pyInt ((msg.lookup "frame_id").getD (.num (-1))) = .ok fid)
    (hcap : pyFloat ((msg.lookup "capture_ts").getD (.num 0)) = .ok cap)
    (htr : pyTruthyOpt (msg.lookup "image_b64") = true)
    (hg : preprocess_letterbox (w : ℤ) (h : ℤ) MODEL_INPUT_SIZE = .ok g)
    (hdec : decode_yolov8 npExp out g (25/100) = .ok dec) :
    processFrame npExp (.ok (w, h)) (.ok out) msg =
      .reply (.frameResult fid cap (nms dec (45/100) 50)) := by
  rw [processFrame_run npExp (.ok (w, h)) (.ok out) hfid hcap, if_pos htr]
  simp only [hg, hdec]

theorem processFrame_decodeErr (npExp : ℚ → ℚ) {msg : PyDict} {fid : ℤ} {cap : ℚ}
    (w h : ℕ) (out : RawOutput) (g : Letterbox) (e : String)
    (hfid : pyInt ((msg.lookup "frame_id").getD (.num (-1))) = .ok fid)
    (hcap : pyFloat ((msg.lookup "capture_ts").getD (.num 0)) = .ok cap)
    (htr : pyTruthyOpt (msg.lookup "image_b64") = true)
    (hg : preprocess_letterbox (w : ℤ) (h : ℤ) MODEL_INPUT_SIZE = .ok g)
    (hdec : decode_yolov8 npExp out g (25/100) = .error e) :
    processFrame npExp (.ok (w, h)) (.ok out) msg = .reply (.frameError fid e) := by
  rw [processFrame_run npExp (.ok (w, h)) (.ok out) hfid hcap, if_pos htr]
  simp only [hg, hdec]

theorem processFrame_result_inv {npExp : ℚ → ℚ} {dI : Except String (ℕ × ℕ)}
    {inf : Except String RawOutput} {msg : PyDict} {fid : ℤ} {cap : ℚ} {dets : List Det}
    (h : processFrame npExp dI inf msg = .reply (.frameResult fid cap dets)) :
    ∃ out lb dec, inf = .ok out ∧ decode_yolov8 npExp out lb (25/100) = .ok dec ∧
      dets = nms dec (45/100) 50 := by
  unfold processFrame at h
  split at h
  · exact Outcome.noConfusion h
  split at h
  · exact Outcome.noConfusion h
  split_ifs at h with htr
  · split at h
    · simp at h
    · split at h
      · simp at h
      · split at h
        · simp at h
        · split at h
          · simp at h
          · simp only [Outcome.reply.injEq, Reply.frameResult.injEq] at h
            exact ⟨_, _, _, rfl, by assumption, h.2.2.symm⟩
  · simp at h

/-- C1: every detection emitted by decode_yolov8 has its box clamped
into the unit square with degenerate boxes discarded, so its
coordinates satisfy 0 <= xmin < xmax <= 1 and 0 <= ymin < ymax <= 1;
and hence so does every detection carried by a successful frame reply
of the session loop. -/
theorem decoded_boxes_bounded :
    (∀ (npExp : ℚ → ℚ) (out : RawOutput) (lb : Letterbox) (th : ℚ) (dets : List Det) (d : Det),
      decode_yolov8 npExp out lb th = .ok dets → d ∈ dets → detBounds d) ∧
    (∀ (npExp : ℚ → ℚ) (dI : Except String (ℕ × ℕ)) (inf : Except String RawOutput)
      (msg : PyDict) (fid : ℤ) (cap : ℚ) (dets : List Det) (d : Det),
      processFrame npExp dI inf msg = .reply (.frameResult fid cap dets) →
      d ∈ dets → detBounds d) := by
  constructor
  · intro npExp out lb th dets d hok hd
    exact decode_mem_bounds hok hd
  · intro npExp dI inf msg fid cap dets d h hd
    obtain ⟨out, lb, dec, _, hdec, hdets⟩ := processFrame_result_inv h
    subst hdets
    exact decode_mem_bounds hdec (mem_of_mem_nms hd)

/-- C1 witness: the concrete tensor raw16 decodes to the single
detection det16, whose box satisfies the bound. -/
theorem decoded_boxes_bounded_witness : detBounds det16 :=
  decoded_boxes_bounded.1 exp0 raw16 lb320 (1/4) [det16] det16
    (by
      have hstep : decode_yolov8 exp0 raw16 lb320 (1/4) =
          decodeMatrix exp0 2 1 (fun i j => raw16.mat j i) lb320 (1/4) := rfl
      rw [hstep]
      norm_num [decodeMatrix, raw16, lb320, det16, exp0, scoreEntries, listMax, listMin,
        argmaxCol, clamp01, show List.range 1 = [0] from rfl,
        show List.range 2 = [0,1] from rfl, List.filterMap_cons, max_def, min_def])
    (List.mem_singleton.2 rfl)

/-- C4: the letterbox geometry satisfies scale = min(m/W, m/H),
draw_w = round(W*scale), draw_h = round(H*scale), both at most the
model size, with centered floor-division paste offsets, and the
transform returns exactly this geometry whenever the resize of line
76 accepts the draw sizes; a 640x480 image at model size 320 yields
draw_w = 320, draw_h = 240, dx = 0, dy = 40. -/
theorem letterbox_geometry :
    (∀ W H m : ℤ, 0 < W → 0 < H →
      (letterboxGeometry W H m).draw_w =
        pyRound ((W : ℚ) * min ((m : ℚ) / (W : ℚ)) ((m : ℚ) / (H : ℚ))) ∧
      (letterboxGeometry W H m).draw_h =
        pyRound ((H : ℚ) * min ((m : ℚ) / (W : ℚ)) ((m : ℚ) / (H : ℚ))) ∧
      (letterboxGeometry W H m).draw_w ≤ m ∧ (letterboxGeometry W H m).draw_h ≤ m ∧
      (letterboxGeometry W H m).dx = Int.fdiv (m - (letterboxGeometry W H m).draw_w) 2 ∧
      (letterboxGeometry W H m).dy = Int.fdiv (m - (letterboxGeometry W H m).draw_h) 2 ∧
      (1 ≤ (letterboxGeometry W H m).draw_w → 1 ≤ (letterboxGeometry W H m).draw_h →
        preprocess_letterbox W H m = .ok (letterboxGeometry W H m))) ∧
    preprocess_letterbox 640 480 320 = .ok ⟨0, 40, 320, 240, 320, 640, 480⟩ := by
  constructor
  · intro W H m hW hH
    have hne : ¬(W = 0 ∨ H = 0) := by push_neg; exact ⟨hW.ne', hH.ne'⟩
    have hWq : (0 : ℚ) < (W : ℚ) := by exact_mod_cast hW
    have hHq : (0 : ℚ) < (H : ℚ) := by exact_mod_cast hH
    have hbw : (W : ℚ) * min ((m : ℚ) / (W : ℚ)) ((m : ℚ) / (H : ℚ)) ≤ (m : ℚ) := by
      calc (W : ℚ) * min ((m : ℚ) / (W : ℚ)) ((m : ℚ) / (H : ℚ))
          ≤ (W : ℚ) * ((m : ℚ) / (W : ℚ)) :=
            mul_le_mul_of_nonneg_left (min_le_left _ _) (le_of_lt hWq)
        _ = (m : ℚ) := by field_simp
    have hbh : (H : ℚ) * min ((m : ℚ) / (W : ℚ)) ((m : ℚ) / (H : ℚ)) ≤ (m : ℚ) := by
      calc (H : ℚ) * min ((m : ℚ) / (W : ℚ)) ((m : ℚ) / (H : ℚ))
          ≤ (H : ℚ) * ((m : ℚ) / (H : ℚ)) :=
            mul_le_mul_of_nonneg_left (min_le_right _ _) (le_of_lt hHq)
        _ = (m : ℚ) := by field_simp
    refine ⟨rfl, rfl, pyRound_le_of_le hbw, pyRound_le_of_le hbh, rfl, rfl, ?_⟩
    intro h1 h2
    unfold preprocess_letterbox
    dsimp only
    rw [if_neg hne, if_neg (by push_neg; exact ⟨h1, h2⟩)]
  · have hf0 : Int.fdiv (0 : ℤ) 2 = 0 := by decide
    have hf80 : Int.fdiv (80 : ℤ) 2 = 40 := by decide
    have hgeo : letterboxGeometry 640 480 320 = ⟨0, 40, 320, 240, 320, 640, 480⟩ := by
      norm_num [letterboxGeometry, pyRound, min_def, Letterbox.mk.injEq]
      norm_num [hf0, hf80, Int.fdiv]
    unfold preprocess_letterbox
    dsimp only
    rw [if_neg (by norm_num), hgeo]
    norm_num

/-- C4 witness: the general statement instantiated at the 640x480
source and model size 320. -/
theorem letterbox_geometry_witness :
    (letterboxGeometry 640 480 320).draw_w = pyRound (((640 : ℤ) : ℚ) *
      min (((320 : ℤ) : ℚ) / ((640 : ℤ) : ℚ)) (((320 : ℤ) : ℚ) / ((480 : ℤ) : ℚ))) ∧
    (letterboxGeometry 640 480 320).draw_h = pyRound (((480 : ℤ) : ℚ) *
      min (((320 : ℤ) : ℚ) / ((640 : ℤ) : ℚ)) (((320 : ℤ) : ℚ) / ((480 : ℤ) : ℚ))) ∧
    (letterboxGeometry 640 480 320).draw_w ≤ 320 ∧
    (letterboxGeometry 640 480 320).draw_h ≤ 320 ∧
    (letterboxGeometry 640 480 320).dx =
      Int.fdiv (320 - (letterboxGeometry 640 480 320).draw_w) 2 ∧
    (letterboxGeometry 640 480 320).dy =
      Int.fdiv (320 - (letterboxGeometry 640 480 320).draw_h) 2 ∧
    (1 ≤ (letterboxGeometry 640 480 320).draw_w →
      1 ≤ (letterboxGeometry 640 480 320).draw_h →
      preprocess_letterbox 640 480 320 = .ok (letterboxGeometry 640 480 320)) :=
  letterbox_geometry.1 640 480 320 (by decide) (by decide)

/-- C7 counterexample: the nonzero-sized 1x641 source at model size
320 rounds its draw width to 0, so the transform fails at the resize
of line 76 with Pillow's error, an error condition beyond zero-sized
inputs. -/
theorem letterbox_nonzero_error_exists :
    preprocess_letterbox 1 641 320 = .error "height and width must be > 0" ∧
    (1 : ℤ) ≠ 0 ∧ (641 : ℤ) ≠ 0 := by
  refine ⟨?_, by decide, by decide⟩
  have hgw : (letterboxGeometry 1 641 320).draw_w = 0 := by
    norm_num [letterboxGeometry, pyRound, min_def]
  unfold preprocess_letterbox
  dsimp only
  rw [if_neg (by norm_num), if_pos (Or.inl (by rw [hgw]; norm_num))]

/-- C7 (amended): the letterbox transform fails on a zero-sized input
with the division-by-zero error (the spec's InvalidImage kind); in
addition a nonzero-sized input whose scaled draw width or height
rounds below 1 fails at the resize of line 76 with Pillow's error
"height and width must be > 0"; there are no other error
conditions. -/
theorem letterbox_error_characterization (W H m : ℤ) :
    (preprocess_letterbox W H m = .error "division by zero" ↔ (W = 0 ∨ H = 0)) ∧
    (preprocess_letterbox W H m = .error "height and width must be > 0" ↔
      (¬(W = 0 ∨ H = 0) ∧
        ((letterboxGeometry W H m).draw_w < 1 ∨ (letterboxGeometry W H m).draw_h < 1))) ∧
    ((∃ e, preprocess_letterbox W H m = .error e) ↔
      ((W = 0 ∨ H = 0) ∨
        (letterboxGeometry W H m).draw_w < 1 ∨ (letterboxGeometry W H m).draw_h < 1)) := by
  by_cases hz : W = 0 ∨ H = 0
  · unfold preprocess_letterbox
    rw [if_pos hz]
    refine ⟨⟨fun _ => hz, fun _ => rfl⟩, ⟨?_, ?_⟩, ⟨fun _ => Or.inl hz, fun _ => ⟨_, rfl⟩⟩⟩
    · intro he
      exact absurd (Except.error.inj he) (by decide)
    · intro h
      exact absurd hz h.1
  · unfold preprocess_letterbox
    dsimp only
    rw [if_neg hz]
    by_cases hd : (letterboxGeometry W H m).draw_w < 1 ∨ (letterboxGeometry W H m).draw_h < 1
    · rw [if_pos hd]
      refine ⟨⟨?_, fun h => absurd h hz⟩, ⟨fun _ => ⟨hz, hd⟩, fun _ => rfl⟩,
              ⟨fun _ => Or.inr hd, fun _ => ⟨_, rfl⟩⟩⟩
      intro he
      exact absurd (Except.error.inj he) (by decide)
    · rw [if_neg hd]
      refine ⟨⟨fun he => Except.noConfusion he, fun h => absurd h hz⟩,
              ⟨fun he => Except.noConfusion he, fun h => absurd h.2 hd⟩,
              ⟨?_, ?_⟩⟩
      · intro h
        obtain ⟨e, he⟩ := h
        exact Except.noConfusion he
      · intro h
        rcases h with h | h
        · exact absurd h hz
        · exact absurd h hd

/-- C5 counterexample: a frame message whose frame_id field is the
string "abc" makes int() raise before the try block, so the handler
crashes and the session loop terminates instead of continuing. -/
theorem frame_id_coercion_crashes :
    processFrame exp0 (.ok (1, 1)) (.error "x") msgBadId =
      .crash "invalid literal for int() with base 10: abc" ∧
    (processFrame exp0 (.ok (1, 1)) (.error "x") msgBadId).continues = false := by
  constructor <;> rfl

/-- C5 (amended): once the frame_id and capture_ts coercions of lines
195-196 succeed, every outcome is a reply and the loop continues; in
particular an image-decode failure, a letterbox failure or an
inference failure is answered with a frame_id/error reply.  (As stated
the claim fails: the coercions run before the try block and their
exceptions terminate the loop; see the counterexample.) -/
theorem frame_errors_caught_after_coercion (npExp : ℚ → ℚ) (dI : Except String (ℕ × ℕ))
    (inf : Except String RawOutput) (msg : PyDict) (fid : ℤ) (cap : ℚ)
    (hfid : pyInt ((msg.lookup "frame_id").getD (.num (-1))) = .ok fid)
    (hcap : pyFloat ((msg.lookup "capture_ts").getD (.num 0)) = .ok cap) :
    (∃ r, processFrame npExp dI inf msg = .reply r) ∧
    (processFrame npExp dI inf msg).continues = true ∧
    (∀ e, pyTruthyOpt (msg.lookup "image_b64") = true → dI = .error e →
      processFrame npExp dI inf msg = .reply (.frameError fid e)) ∧
    (∀ e w h, pyTruthyOpt (msg.lookup "image_b64") = true → dI = .ok (w, h) →
      preprocess_letterbox (w : ℤ) (h : ℤ) MODEL_INPUT_SIZE = .error e →
      processFrame npExp dI inf msg = .reply (.frameError fid e)) ∧
    (∀ e w h g, pyTruthyOpt (msg.lookup "image_b64") = true → dI = .ok (w, h) →
      preprocess_letterbox (w : ℤ) (h : ℤ) MODEL_INPUT_SIZE = .ok g → inf = .error e →
      processFrame npExp dI inf msg = .reply (.frameError fid e)) := by
  have hex : ∃ r, processFrame npExp dI inf msg = .reply r := by
    by_cases htr : pyTruthyOpt (msg.lookup "image_b64") = true
    · cases dI with
      | error e => exact ⟨_, processFrame_imageErr npExp inf e hfid hcap htr⟩
      | ok wh =>
        obtain ⟨w, h⟩ := wh
        cases hpre : preprocess_letterbox (w : ℤ) (h : ℤ) MODEL_INPUT_SIZE with
        | error e0 => exact ⟨_, processFrame_preErr npExp inf w h e0 hfid hcap htr hpre⟩
        | ok g =>
          cases inf with
          | error e =>
            exact ⟨_, processFrame_inferErr npExp w h g e hfid hcap htr hpre⟩
          | ok out =>
            cases hdec : decode_yolov8 npExp out g (25/100) with
            | error e =>
              exact ⟨_, processFrame_decodeErr npExp w h out g e hfid hcap htr hpre hdec⟩
            | ok dec =>
              exact ⟨_, processFrame_success npExp w h out g dec hfid hcap htr hpre hdec⟩
    · have hrun := processFrame_run npExp dI inf hfid hcap
      rw [if_neg htr] at hrun
      exact ⟨_, hrun⟩
  refine ⟨hex, ?_, ?_, ?_, ?_⟩
  · obtain ⟨r, hr⟩ := hex
    rw [hr]
    rfl
  · intro e htr hdI
    subst hdI
    exact processFrame_imageErr npExp inf e hfid hcap htr
  · intro e w h htr hdI hpre
    subst hdI
    exact processFrame_preErr npExp inf w h e hfid hcap htr hpre
  · intro e w h g htr hdI hpre hinf
    subst hdI
    subst hinf
    exact processFrame_inferErr npExp w h g e hfid hcap htr hpre

/-- C5 witness: the amended statement instantiated on a coercible
message with a failing image decode and a failing inference call. -/
theorem frame_errors_caught_witness :
    (∃ r, processFrame exp0 (.error "cannot identify image file") (.error "x") msgGood
        = .reply r) ∧
    (processFrame exp0 (.error "cannot identify image file") (.error "x") msgGood).continues
        = true ∧
    (∀ e, pyTruthyOpt (msgGood.lookup "image_b64") = true →
      (.error "cannot identify image file" : Except String (ℕ × ℕ)) = .error e →
      processFrame exp0 (.error "cannot identify image file") (.error "x") msgGood
        = .reply (.frameError 7 e)) ∧
    (∀ e w h, pyTruthyOpt (msgGood.lookup "image_b64") = true →
      (.error "cannot identify image file" : Except String (ℕ × ℕ)) = .ok (w, h) →
      preprocess_letterbox (w : ℤ) (h : ℤ) MODEL_INPUT_SIZE = .error e →
      processFrame exp0 (.error "cannot identify image file") (.error "x") msgGood
        = .reply (.frameError 7 e)) ∧
    (∀ e w h g, pyTruthyOpt (msgGood.lookup "image_b64") = true →
      (.error "cannot identify image file" : Except String (ℕ × ℕ)) = .ok (w, h) →
      preprocess_letterbox (w : ℤ) (h : ℤ) MODEL_INPUT_SIZE = .ok g →
      (.error "x" : Except String RawOutput) = .error e →
      processFrame exp0 (.error "cannot identify image file") (.error "x") msgGood
        = .reply (.frameError 7 e)) :=
  frame_errors_caught_after_coercion exp0 (.error "cannot identify image file") (.error "x")
    msgGood 7 0 (by rfl) (by rfl)

/-- C8: a coercible message without an image_b64 field is answered with
the error reply "missing image_b64" and the loop keeps accepting
frames. -/
theorem missing_image_reply (npExp : ℚ → ℚ) (dI : Except String (ℕ × ℕ))
    (inf : Except String RawOutput) (msg : PyDict) (fid : ℤ) (cap : ℚ)
    (hfid : pyInt ((msg.lookup "frame_id").getD (.num (-1))) = .ok fid)
    (hcap : pyFloat ((msg.lookup "capture_ts").getD (.num 0)) = .ok cap)
    (hmiss : msg.lookup "image_b64" = none) :
    processFrame npExp dI inf msg = .reply (.errorOnly "missing image_b64") ∧
    (processFrame npExp dI inf msg).continues = true := by
  have hrun := processFrame_run npExp dI inf hfid hcap
  rw [hmiss] at hrun
  rw [if_neg (by simp [pyTruthyOpt])] at hrun
  exact ⟨hrun, by rw [hrun]; rfl⟩

/-- C8 witness: the concrete message msgNoImage gets the missing-image
error reply and the loop continues. -/
theorem missing_image_reply_witness :
    processFrame exp0 (.error "e") (.error "x") msgNoImage
      = .reply (.errorOnly "missing image_b64") ∧
    (processFrame exp0 (.error "e") (.error "x") msgNoImage).continues = true :=
  missing_image_reply exp0 (.error "e") (.error "x") msgNoImage 7 0 (by rfl) (by rfl) (by rfl)

/-- C6 (amended): an output tensor of unexpected shape or rank (not
3-D, or neither non-batch dimension at least 6) makes the decoder
return the empty detection list, and a frame whose letterbox step
succeeded is answered with a successful frame result carrying zero
detections, not an error reply.  (As stated the claim fails: no
DecodeFailure error reply is produced for such shapes; see the
counterexample.) -/
theorem bad_shape_empty_success :
    (∀ (npExp : ℚ → ℚ) (dims : List ℕ) (mat : ℕ → ℕ → ℚ) (lb : Letterbox) (th : ℚ),
      (∀ a b c, dims = [a, b, c] → ¬(6 ≤ b ∨ 6 ≤ c)) →
      decode_yolov8 npExp ⟨dims, mat⟩ lb th = .ok []) ∧
    (∀ (npExp : ℚ → ℚ) (msg : PyDict) (fid : ℤ) (cap : ℚ) (w h : ℕ) (g : Letterbox)
      (out : RawOutput),
      pyInt ((msg.lookup "frame_id").getD (.num (-1))) = .ok fid →
      pyFloat ((msg.lookup "capture_ts").getD (.num 0)) = .ok cap →
      pyTruthyOpt (msg.lookup "image_b64") = true →
      preprocess_letterbox (w : ℤ) (h : ℤ) MODEL_INPUT_SIZE = .ok g →
      (∀ a b c, out.dims = [a, b, c] → ¬(6 ≤ b ∨ 6 ≤ c)) →
      processFrame npExp (.ok (w, h)) (.ok out) msg = .reply (.frameResult fid cap [])) := by
  have hdec : ∀ (npExp : ℚ → ℚ) (dims : List ℕ) (mat : ℕ → ℕ → ℚ) (lb : Letterbox) (th : ℚ),
      (∀ a b c, dims = [a, b, c] → ¬(6 ≤ b ∨ 6 ≤ c)) →
      decode_yolov8 npExp ⟨dims, mat⟩ lb th = .ok [] := by
    intro npExp dims mat lb th hbad
    rcases dims with _ | ⟨a, _ | ⟨b, _ | ⟨c, _ | ⟨d, rest⟩⟩⟩⟩
    · rfl
    · rfl
    · rfl
    · show (if 6 ≤ b ∨ 6 ≤ c then _ else Except.ok []) = Except.ok []
      rw [if_neg (hbad a b c rfl)]
    · rfl
  refine ⟨hdec, ?_⟩
  intro npExp msg fid cap w h g out hfid hcap htr hg hbad
  have hd : decode_yolov8 npExp out g (25/100) = .ok [] :=
    hdec npExp out.dims out.mat g (25/100) hbad
  exact processFrame_success npExp w h out g [] hfid hcap htr hg hd

/-- C6 witness: the amended statement at a concrete rank-2 output
tensor on a well-formed frame with a 320x320 source. -/
theorem bad_shape_empty_success_witness :
    processFrame exp0 (.ok (320, 320)) (.ok rawRank2) msgGood
      = .reply (.frameResult 7 0 []) :=
  bad_shape_empty_success.2 exp0 msgGood 7 0 320 320 lb320 rawRank2 (by rfl) (by rfl) (by rfl)
    preprocess_320
    (by intro a b c hh; simp [rawRank2] at hh)

/-- C6 counterexample: a rank-2 inference output on a well-formed frame
with a 64x64 source is answered with a successful empty frame result,
not a frame_id/error message as the claim requires. -/
theorem bad_shape_error_refuted :
    processFrame exp0 (.ok (64, 64)) (.ok rawRank2) msgGood
      = .reply (.frameResult 7 0 []) ∧
    (processFrame exp0 (.ok (64, 64)) (.ok rawRank2) msgGood).isErrorReply = false := by
  have hd : decode_yolov8 exp0 rawRank2 ⟨0, 0, 320, 320, 320, 64, 64⟩ (25/100) = .ok [] := rfl
  have h : processFrame exp0 (.ok (64, 64)) (.ok rawRank2) msgGood
      = .reply (.frameResult 7 0 []) :=
    processFrame_success exp0 64 64 rawRank2 ⟨0, 0, 320, 320, 320, 64, 64⟩ []
      (by rfl) (by rfl) (by rfl) preprocess_64 hd
  exact ⟨h, by rw [h]; rfl⟩
